import Mathlib

/-!
Verification of the distributed-service coordination layer of seastar-rs
(`seastar/src/distributed.rs`, `submit_to.rs`, `spawn.rs`, `api_safety.rs`,
`smp.rs`), as a shallow embedding.

The embedding models:
* the per-shard exclusivity tokens (`_locks: Vec<Arc<RwLock<()>>>`) together
  with the aliasing produced by `vec![Default::default(); get_count()]`
  (which clones a single `Arc`, so every slot shares one lock);
* the borrow-discipline state machine: every acquisition path in the source
  (`submit_to`, `submit_to_mut`, `map_current`, `map_current_mut`) calls
  `RwLock::try_read` on the token and panics when it fails;
* the mapping layer (`map_single`, `map_selected`, `map_all`, `map_others`)
  and the delivery of results through `submit_to`'s one-shot channel;
* the panic-on-transport-failure completions and the
  `assert_runtime_is_running` guards.
-/

namespace SeastarRs

/-! ### std::sync::RwLock, as used for the exclusivity tokens -/

/-- State of one `RwLock<()>`: the number of read guards currently alive and
the number of write guards currently alive (0 or 1). -/
structure RwLockState where
  readers : Nat
  writers : Nat
deriving Repr, DecidableEq

/-- A freshly constructed (`Default::default()`) lock: no guards held. -/
def RwLockState.free : RwLockState := ⟨0, 0⟩

/-- `RwLock::try_read`: succeeds exactly when no write guard is alive,
adding one read guard.  Multiple read guards coexist. -/
def tryRead (l : RwLockState) : Option RwLockState :=
  if l.writers = 0 then some ⟨l.readers + 1, l.writers⟩ else none

/-- `RwLock::try_write`: succeeds exactly when no guard of either kind is
alive.  Present for completeness of the lock model: no code path of the
repository ever calls it on an exclusivity token. -/
def tryWrite (l : RwLockState) : Option RwLockState :=
  if l.writers = 0 && l.readers = 0 then some ⟨l.readers, l.writers + 1⟩ else none

/-- Dropping a read guard. -/
def dropRead (l : RwLockState) : RwLockState := ⟨l.readers - 1, l.writers⟩

/-! ### The vector of exclusivity tokens

`Distributed<S>` holds `_locks: Vec<Arc<RwLock<()>>>`.  Because an `Arc`
clone shares its allocation, we model the vector as a table from slot
(shard id) to allocation id plus a store mapping allocation ids to lock
states. -/

/-- The `_locks` vector: `alloc` maps each vector slot to the id of the
`RwLock` allocation it points at; `store` holds the state of each
allocation. -/
structure LockVec where
  alloc : List Nat
  store : List RwLockState
deriving Repr, DecidableEq

/-- `vec![Default::default(); shard_count]` from `Distributed::start_inner`
(distributed.rs line 189): the `vec!` repeat macro evaluates
`Default::default()` once, producing a single `Arc<RwLock<()>>`, and clones
that `Arc` into every slot.  Hence one allocation, referenced by all slots. -/
def mkLocks (shardCount : Nat) : LockVec :=
  ⟨List.replicate shardCount 0, [RwLockState.free]⟩

/-- Modelled from the spec: one *distinct* exclusivity token per shard, all
initially free ("Both allocate one exclusivity token per shard up front, all
initially free", "enforced independently per shard").  Used only to compare
the source's allocation against the spec's wording. -/
def mkLocksSpec (shardCount : Nat) : LockVec :=
  ⟨List.range shardCount, List.replicate shardCount RwLockState.free⟩

/-- Reading `self._locks[slot]` and dereferencing the `Arc`:
`none` models the index-out-of-bounds panic. -/
def LockVec.getLock (v : LockVec) (slot : Nat) : Option RwLockState :=
  match v.alloc[slot]? with
  | some a => v.store[a]?
  | none => none

/-- Updating the lock that slot `slot` points at (the effect of a guard
being created or dropped through `self._locks[slot]`). -/
def LockVec.setLock (v : LockVec) (slot : Nat) (l : RwLockState) : LockVec :=
  match v.alloc[slot]? with
  | some a => ⟨v.alloc, v.store.set a l⟩
  | none => v

/-! ### The borrow-discipline state machine

Every path of the source that touches a token does exactly one of:
* `let lock = lock.try_read(); if lock.is_err() { panic }` — in
  `submit_to` (line 322), `submit_to_mut` (line 361), `map_current`
  (line 623) and `map_current_mut` (line 656); this is `Event.acquire`;
* drop the read guard when the dispatched closure's future completes;
  this is `Event.release`;
* run the user closure, which may mutate the shard's instance through
  `PeeringShardedServiceMut`; this is `Event.mutate`.

No path calls `write`, `try_write` or `read` on a token. -/

/-- Which panic fired. `borrow` stands for the
`instance {} already borrowed` / `instance {} already mutably borrowed`
branches; `index` stands for the `self._locks[shard_id]` slice-index panic. -/
inductive PanicKind where
  | borrow
  | index
deriving Repr, DecidableEq

/-- One primitive event of the container, as enumerated above. -/
inductive Event (σ : Type) where
  | acquire (slot : Nat)
  | release (slot : Nat)
  | mutate (slot : Nat) (f : σ → σ)

/-- State of a started container: its token vector, the per-shard service
instances, and whether (and how) a panic has occurred. -/
structure DistState (σ : Type) where
  locks : LockVec
  instances : List σ
  panicked : Option PanicKind

/-- State right after `start`/`start_single` completes: tokens as allocated
by the source's `vec![Default::default(); shard_count]`, no panic. -/
def initState (σ : Type) (shardCount : Nat) (insts : List σ) : DistState σ :=
  ⟨mkLocks shardCount, insts, none⟩

/-- Same, but with the token vector the spec describes (distinct tokens).
Used only for the comparison in the C2 analysis. -/
def initStateSpec (σ : Type) (shardCount : Nat) (insts : List σ) : DistState σ :=
  ⟨mkLocksSpec shardCount, insts, none⟩

/-- The `try_read`-or-panic acquisition shared by all four dispatch paths. -/
def stepAcquire (s : DistState σ) (slot : Nat) : DistState σ :=
  match s.locks.getLock slot with
  | none => { s with panicked := some PanicKind.index }
  | some l =>
    match tryRead l with
    | some l2 => { s with locks := s.locks.setLock slot l2 }
    | none => { s with panicked := some PanicKind.borrow }

/-- Dropping the read guard when the dispatched future completes. -/
def stepRelease (s : DistState σ) (slot : Nat) : DistState σ :=
  match s.locks.getLock slot with
  | none => s
  | some l => { s with locks := s.locks.setLock slot (dropRead l) }

/-- A user closure mutating the shard's instance through
`PeeringShardedServiceMut`. -/
def stepMutate (s : DistState σ) (slot : Nat) (f : σ → σ) : DistState σ :=
  match s.instances[slot]? with
  | some v => { s with instances := s.instances.set slot (f v) }
  | none => s

/-- One step of the container.  After a panic the process is dead, so
further events are ignored. -/
def step (s : DistState σ) (e : Event σ) : DistState σ :=
  match s.panicked with
  | some _ => s
  | none =>
    match e with
    | .acquire slot => stepAcquire s slot
    | .release slot => stepRelease s slot
    | .mutate slot f => stepMutate s slot f

/-- Running a sequence of events. -/
def run (s : DistState σ) : List (Event σ) → DistState σ
  | [] => s
  | e :: es => run (step s e) es

lemma step_panicked_eq (s : DistState σ) (e : Event σ) (k : PanicKind)
    (hp : s.panicked = some k) : step s e = s := by
  unfold step
  rw [hp]

lemma step_acquire_eq (s : DistState σ) (slot : Nat) (hp : s.panicked = none) :
    step s (Event.acquire slot) = stepAcquire s slot := by
  unfold step
  rw [hp]

lemma step_release_eq (s : DistState σ) (slot : Nat) (hp : s.panicked = none) :
    step s (Event.release slot) = stepRelease s slot := by
  unfold step
  rw [hp]

lemma step_mutate_eq (s : DistState σ) (slot : Nat) (f : σ → σ)
    (hp : s.panicked = none) : step s (Event.mutate slot f) = stepMutate s slot f := by
  unfold step
  rw [hp]

/-! ### No write guard ever exists, so the borrow panics are unreachable -/

/-- Every lock in the store is free of write guards. -/
def WriterFree (v : LockVec) : Prop := ∀ l ∈ v.store, l.writers = 0

lemma getLock_mem (v : LockVec) (slot : Nat) (l : RwLockState)
    (h : v.getLock slot = some l) : l ∈ v.store := by
  unfold LockVec.getLock at h
  cases halloc : v.alloc[slot]? with
  | none => simp [halloc] at h
  | some a =>
    rw [halloc] at h
    exact List.getElem?_mem h

lemma writerFree_setLock (v : LockVec) (slot : Nat) (l : RwLockState)
    (hv : WriterFree v) (hl : l.writers = 0) : WriterFree (v.setLock slot l) := by
  unfold LockVec.setLock
  cases halloc : v.alloc[slot]? with
  | none => exact hv
  | some a =>
    intro x hx
    rcases List.mem_or_eq_of_mem_set hx with hx2 | rfl
    · exact hv x hx2
    · exact hl

lemma tryRead_of_writerFree (v : LockVec) (slot : Nat) (l : RwLockState)
    (hv : WriterFree v) (h : v.getLock slot = some l) :
    tryRead l = some ⟨l.readers + 1, l.writers⟩ := by
  have hw : l.writers = 0 := hv l (getLock_mem v slot l h)
  simp [tryRead, hw]

lemma writerFree_stepAcquire (s : DistState σ) (slot : Nat)
    (h : WriterFree s.locks) : WriterFree (stepAcquire s slot).locks := by
  unfold stepAcquire
  cases hg : s.locks.getLock slot with
  | none => exact h
  | some l =>
    have ht := tryRead_of_writerFree s.locks slot l h hg
    simp only [ht]
    exact writerFree_setLock s.locks slot _ h (h l (getLock_mem s.locks slot l hg))

lemma writerFree_stepRelease (s : DistState σ) (slot : Nat)
    (h : WriterFree s.locks) : WriterFree (stepRelease s slot).locks := by
  unfold stepRelease
  cases hg : s.locks.getLock slot with
  | none => exact h
  | some l =>
    exact writerFree_setLock s.locks slot _ h (h l (getLock_mem s.locks slot l hg))

lemma writerFree_stepMutate (s : DistState σ) (slot : Nat) (f : σ → σ)
    (h : WriterFree s.locks) : WriterFree (stepMutate s slot f).locks := by
  unfold stepMutate
  cases hg : s.instances[slot]? with
  | none => exact h
  | some v => exact h

lemma writerFree_step (s : DistState σ) (e : Event σ)
    (h : WriterFree s.locks) : WriterFree (step s e).locks := by
  cases hp : s.panicked with
  | some k =>
    rw [step_panicked_eq s e k hp]
    exact h
  | none =>
    cases e with
    | acquire slot =>
      rw [step_acquire_eq s slot hp]
      exact writerFree_stepAcquire s slot h
    | release slot =>
      rw [step_release_eq s slot hp]
      exact writerFree_stepRelease s slot h
    | mutate slot f =>
      rw [step_mutate_eq s slot f hp]
      exact writerFree_stepMutate s slot f h

lemma stepAcquire_no_borrow (s : DistState σ) (slot : Nat)
    (hw : WriterFree s.locks) (hp : s.panicked = none) :
    (stepAcquire s slot).panicked ≠ some PanicKind.borrow := by
  unfold stepAcquire
  cases hg : s.locks.getLock slot with
  | none => simp
  | some l =>
    have ht := tryRead_of_writerFree s.locks slot l hw hg
    simp [ht, hp]

lemma stepRelease_panicked (s : DistState σ) (slot : Nat) :
    (stepRelease s slot).panicked = s.panicked := by
  unfold stepRelease
  cases hg : s.locks.getLock slot with
  | none => rfl
  | some l => rfl

lemma stepMutate_panicked (s : DistState σ) (slot : Nat) (f : σ → σ) :
    (stepMutate s slot f).panicked = s.panicked := by
  unfold stepMutate
  cases hg : s.instances[slot]? with
  | none => rfl
  | some v => rfl

lemma step_no_borrow (s : DistState σ) (e : Event σ)
    (hw : WriterFree s.locks) (h : s.panicked ≠ some PanicKind.borrow) :
    (step s e).panicked ≠ some PanicKind.borrow := by
  cases hp : s.panicked with
  | some k =>
    rw [step_panicked_eq s e k hp]
    exact h
  | none =>
    cases e with
    | acquire slot =>
      rw [step_acquire_eq s slot hp]
      exact stepAcquire_no_borrow s slot hw hp
    | release slot =>
      rw [step_release_eq s slot hp, stepRelease_panicked, hp]
      simp
    | mutate slot f =>
      rw [step_mutate_eq s slot f hp, stepMutate_panicked, hp]
      simp

lemma run_no_borrow (es : List (Event σ)) (s : DistState σ)
    (hw : WriterFree s.locks) (h : s.panicked ≠ some PanicKind.borrow) :
    (run s es).panicked ≠ some PanicKind.borrow := by
  induction es generalizing s with
  | nil => exact h
  | cons e es ih =>
    exact ih (step s e) (writerFree_step s e hw) (step_no_borrow s e hw h)

/-- C3: the panic branches `instance {} already borrowed` and
`instance {} already mutably borrowed` are unreachable: every acquisition
path calls `RwLock::try_read`, no path ever takes the write lock, so
`try_read` never fails, for every sequence of container events starting
from a started container. -/
theorem borrow_panic_unreachable (σ : Type) (shardCount : Nat)
    (insts : List σ) (es : List (Event σ)) :
    (run (initState σ shardCount insts) es).panicked ≠ some PanicKind.borrow := by
  apply run_no_borrow
  · intro l hl
    simp only [initState, mkLocks, List.mem_singleton] at hl
    rw [hl]
    rfl
  · simp [initState]

/-- Witness for C3 at a concrete input. -/
theorem borrow_panic_unreachable_witness :
    (run (initState Nat 1 [0]) [Event.acquire 0, Event.acquire 0]).panicked
      ≠ some PanicKind.borrow :=
  borrow_panic_unreachable Nat 1 [0] [Event.acquire 0, Event.acquire 0]

/-! ### C1: overlapping mutating operations do not panic

`submit_to_mut` and `map_current_mut` guard the instance with
`lock.try_read()` — a *read* acquisition.  Two in-flight mutating
operations on the same shard therefore hold two read guards, which coexist,
and the second one runs instead of panicking.  This contradicts both the
spec and the source's own doc comment on `Distributed`
("Failing to comply with this rule will lead to a panic"). -/

/-- C1 (code bug demonstration): with one shard, a second mutating
acquisition on shard 0 while the first is still in flight succeeds — the
state carries two read guards and no panic, where the claim (and the
source's doc comment) demand a panic naming shard 0. -/
theorem mut_overlap_does_not_panic :
    (run (initState Nat 1 [0]) [Event.acquire 0, Event.acquire 0]).panicked = none
    ∧ (run (initState Nat 1 [0]) [Event.acquire 0, Event.acquire 0]).locks.getLock 0
        = some ⟨2, 0⟩ := by
  constructor
  · rfl
  · rfl

/-! ### C2: the tokens are not distinct

`vec![Default::default(); get_count() as usize]` clones one
`Arc<RwLock<()>>`, so every slot of `_locks` aliases a single lock.  The
spec instead describes one distinct, independently acting token per shard. -/

/-- C2 (code bug demonstration): with `shard_count = 2`, the code's token
vector routes slot 0 and slot 1 to the same allocation, and an acquisition
through shard 0's slot is visible through shard 1's slot (the lock consulted
for shard 1 shows the reader); in the vector the spec describes the
allocations are distinct and shard 1's token stays free. -/
theorem tokens_aliased :
    (mkLocks 2).alloc[0]? = (mkLocks 2).alloc[1]?
    ∧ (run (initState Nat 2 [0, 0]) [Event.acquire 0]).locks.getLock 1
        = some ⟨1, 0⟩
    ∧ ((mkLocksSpec 2).alloc[0]? ≠ (mkLocksSpec 2).alloc[1]?)
    ∧ (run (initStateSpec Nat 2 [0, 0]) [Event.acquire 0]).locks.getLock 1
        = some RwLockState.free := by
  refine ⟨rfl, rfl, ?_, rfl⟩
  decide

/-! ### C7: concurrent non-mutating operations -/

/-- C7: two concurrent non-mutating operations against the same shard's
instance both succeed (two read guards coexist, no panic), and neither
changes any instance, so each observes the instance state unchanged by the
other. -/
theorem concurrent_reads_succeed (σ : Type) (shardCount slot : Nat)
    (h : slot < shardCount) (insts : List σ) :
    (run (initState σ shardCount insts) [Event.acquire slot]).panicked = none
    ∧ (run (initState σ shardCount insts)
        [Event.acquire slot, Event.acquire slot]).panicked = none
    ∧ (run (initState σ shardCount insts) [Event.acquire slot]).instances = insts
    ∧ (run (initState σ shardCount insts)
        [Event.acquire slot, Event.acquire slot]).instances = insts := by
  have halloc : (List.replicate shardCount 0)[slot]? = some 0 := by
    simp [List.getElem?_replicate, h]
  have h1 : step (initState σ shardCount insts) (Event.acquire slot)
      = ⟨⟨List.replicate shardCount 0, [⟨1, 0⟩]⟩, insts, none⟩ := by
    rw [step_acquire_eq _ _ rfl]
    unfold stepAcquire initState mkLocks LockVec.getLock LockVec.setLock
    dsimp only
    rw [halloc]
    rfl
  have h2 : step (⟨⟨List.replicate shardCount 0, [⟨1, 0⟩]⟩, insts, none⟩ : DistState σ)
      (Event.acquire slot)
      = ⟨⟨List.replicate shardCount 0, [⟨2, 0⟩]⟩, insts, none⟩ := by
    rw [step_acquire_eq _ _ rfl]
    unfold stepAcquire LockVec.getLock LockVec.setLock
    dsimp only
    rw [halloc]
    rfl
  refine ⟨?_, ?_, ?_, ?_⟩
  · show (step (initState σ shardCount insts) (Event.acquire slot)).panicked = none
    rw [h1]
  · show (step (step (initState σ shardCount insts) (Event.acquire slot))
        (Event.acquire slot)).panicked = none
    rw [h1, h2]
  · show (step (initState σ shardCount insts) (Event.acquire slot)).instances = insts
    rw [h1]
  · show (step (step (initState σ shardCount insts) (Event.acquire slot))
        (Event.acquire slot)).instances = insts
    rw [h1, h2]

/-- Witness for C7 at a concrete input. -/
theorem concurrent_reads_succeed_witness :
    (run (initState Nat 2 [3, 4]) [Event.acquire 0]).panicked = none
    ∧ (run (initState Nat 2 [3, 4])
        [Event.acquire 0, Event.acquire 0]).panicked = none
    ∧ (run (initState Nat 2 [3, 4]) [Event.acquire 0]).instances = [3, 4]
    ∧ (run (initState Nat 2 [3, 4])
        [Event.acquire 0, Event.acquire 0]).instances = [3, 4] :=
  concurrent_reads_succeed Nat 2 0 (by decide) [3, 4]

/-! ### The mapping layer and result delivery

`map_single` (distributed.rs line 576) hands the user closure to the
`submit_to` method, which synchronously indexes `self._locks[shard_id]`
(an out-of-bounds shard id panics, modelled as `none`) and dispatches
through the free function `submit_to` (submit_to.rs line 37).  On the
target shard the dispatched closure reads the local instance, applies the
user closure to it, and sends the value through a fresh one-shot channel;
the calling side receives it with `rx.await.unwrap()`.

`map_selected` (line 378) loops over the chosen shard ids pushing one
`map_single` future per shard; `map_all` (line 455) chooses `0..get_count()`
and `map_others` (line 515) chooses `(0..get_count()).filter(|sh|
sh.ne(&this_shard))`. -/

/-- A dispatched-but-not-yet-joined future: the target shard and the user
closure, which will be applied to the target shard's instance. -/
structure Dispatch (σ ρ : Type) where
  target : Nat
  func : σ → ρ

/-- The `futures::channel::oneshot` channel used by `submit_to`: the list of
values sent on it (the sender is consumed by `send`, so the source can send
at most once). -/
structure Oneshot (ρ : Type) where
  sent : List ρ

/-- `tx.send(v)`. -/
def Oneshot.send (c : Oneshot ρ) (v : ρ) : Oneshot ρ := ⟨c.sent ++ [v]⟩

/-- `rx.await.unwrap()`: resolves exactly when precisely one value was sent;
`none` models the unwrap panic on a dropped sender. -/
def Oneshot.recv (c : Oneshot ρ) : Option ρ :=
  match c.sent with
  | [v] => some v
  | _ => none

/-- The free function `submit_to` composed with the closure built by
`Distributed::submit_to`: runs the user closure on shard `shard_id` against
that shard's instance, sends the value through a fresh one-shot channel and
receives it on the calling shard.  Returns the list of shards on which the
closure ran, and the delivered value. -/
def submit_to (instances : Nat → σ) (shard_id : Nat) (func : σ → ρ) :
    List Nat × Option ρ :=
  ([shard_id], (Oneshot.send ⟨[]⟩ (func (instances shard_id))).recv)

/-- Joining one dispatched future. -/
def runDispatch (instances : Nat → σ) (d : Dispatch σ ρ) : List Nat × Option ρ :=
  submit_to instances d.target d.func

/-- `Distributed::map_single`: builds the dispatch for the named shard;
`none` models the `self._locks[shard_id]` index panic for an out-of-range
shard id. -/
def map_single (shardCount shard_id : Nat) (func : σ → ρ) :
    Option (Dispatch σ ρ) :=
  if shard_id < shardCount then some ⟨shard_id, func⟩ else none

/-- `Distributed::map_selected`: one `map_single` per chosen shard id. -/
def map_selected (shardCount : Nat) (func : σ → ρ) :
    List Nat → Option (List (Dispatch σ ρ))
  | [] => some []
  | sh :: rest =>
    match map_single shardCount sh func with
    | none => none
    | some d =>
      match map_selected shardCount func rest with
      | none => none
      | some ds => some (d :: ds)

/-- `Distributed::map_all`: `map_selected` over `0..get_count()`. -/
def map_all (shardCount : Nat) (func : σ → ρ) : Option (List (Dispatch σ ρ)) :=
  map_selected shardCount func (List.range shardCount)

/-- `Distributed::map_others`: `map_selected` over
`(0..get_count()).filter(|sh| sh.ne(&this_shard))`. -/
def map_others (shardCount thisShard : Nat) (func : σ → ρ) :
    Option (List (Dispatch σ ρ)) :=
  map_selected shardCount func
    ((List.range shardCount).filter (fun sh => sh != thisShard))

lemma map_selected_eq (shardCount : Nat) (func : σ → ρ) (shards : List Nat)
    (h : ∀ sh ∈ shards, sh < shardCount) :
    map_selected shardCount func shards
      = some (shards.map (fun sh => ⟨sh, func⟩)) := by
  induction shards with
  | nil => rfl
  | cons sh rest ih =>
    have hsh : sh < shardCount := h sh (List.mem_cons_self sh rest)
    have hrest : ∀ x ∈ rest, x < shardCount :=
      fun x hx => h x (List.mem_cons_of_mem sh hx)
    simp only [map_selected, map_single, if_pos hsh, ih hrest, List.map_cons]

/-- C4: `map_single(K, f)` dispatches to exactly shard K: joining it runs
`f` once on shard K and on no other shard, applied to shard K's instance,
and the caller's future resolves with exactly the value `f` produced,
delivered once through the one-shot channel. -/
theorem map_single_runs_once_on_target (σ ρ : Type) (shardCount shard_id : Nat)
    (h : shard_id < shardCount) (func : σ → ρ) (instances : Nat → σ) :
    ∃ d, map_single shardCount shard_id func = some d
      ∧ (runDispatch instances d).1.count shard_id = 1
      ∧ (∀ j, j ≠ shard_id → (runDispatch instances d).1.count j = 0)
      ∧ (runDispatch instances d).2 = some (func (instances shard_id)) := by
  refine ⟨⟨shard_id, func⟩, ?_, ?_, ?_, ?_⟩
  · simp [map_single, h]
  · simp [runDispatch, submit_to]
  · intro j hj
    simp [runDispatch, submit_to, List.count_cons, hj]
  · rfl

/-- Witness for C4 at a concrete input. -/
theorem map_single_runs_once_on_target_witness :
    ∃ d, map_single 2 1 (fun x => x + 1) = some d
      ∧ (runDispatch (fun sh => sh * 10) d).1.count 1 = 1
      ∧ (∀ j, j ≠ 1 → (runDispatch (fun sh => sh * 10) d).1.count j = 0)
      ∧ (runDispatch (fun sh => sh * 10) d).2 = some 11 :=
  map_single_runs_once_on_target Nat Nat 2 1 (by decide)
    (fun x => x + 1) (fun sh => sh * 10)

lemma filter_ne_length (shardCount thisShard : Nat) (h : thisShard < shardCount) :
    ((List.range shardCount).filter (fun sh => sh != thisShard)).length
      = shardCount - 1 := by
  induction shardCount with
  | zero => cases h
  | succ n ih =>
    rw [List.range_succ n, List.filter_append, List.length_append]
    rcases Nat.lt_succ_iff_lt_or_eq.mp h with h2 | rfl
    · have hne : (n != thisShard) = true := by
        simp
        omega
      rw [ih h2]
      simp [List.filter_cons, hne]
      omega
    · have hfl : (List.range thisShard).filter (fun sh => sh != thisShard)
          = List.range thisShard := by
        apply List.filter_eq_self.mpr
        intro a ha
        simp
        exact Nat.ne_of_lt (List.mem_range.mp ha)
      simp [hfl, List.filter_cons]

/-- C5: `map_others(f)` invoked from shard `thisShard` returns exactly
`shardCount - 1` futures, one per shard other than the current one, and
none of them targets the current shard (with one shard the vector is
empty, since its length is `1 - 1 = 0`). -/
theorem map_others_excludes_current (σ ρ : Type) (shardCount thisShard : Nat)
    (h : thisShard < shardCount) (func : σ → ρ) :
    ∃ l, map_others shardCount thisShard func = some l
      ∧ l.length = shardCount - 1
      ∧ (∀ d ∈ l, d.target ≠ thisShard)
      ∧ (∀ j, j < shardCount → j ≠ thisShard →
          (l.map Dispatch.target).count j = 1) := by
  refine ⟨((List.range shardCount).filter (fun sh => sh != thisShard)).map
      (fun sh => ⟨sh, func⟩), ?_, ?_, ?_, ?_⟩
  · unfold map_others
    apply map_selected_eq
    intro sh hsh
    exact List.mem_range.mp (List.mem_filter.mp hsh).1
  · rw [List.length_map]
    exact filter_ne_length shardCount thisShard h
  · intro d hd
    rcases List.mem_map.mp hd with ⟨sh, hsh, rfl⟩
    have h2 := (List.mem_filter.mp hsh).2
    simpa using h2
  · intro j hj hjne
    have hmap : ((((List.range shardCount).filter
          (fun sh => sh != thisShard)).map
          (fun sh => (⟨sh, func⟩ : Dispatch σ ρ))).map Dispatch.target)
        = (List.range shardCount).filter (fun sh => sh != thisShard) := by
      simp [List.map_map, Function.comp_def]
    rw [hmap, List.count_filter (by simpa using hjne)]
    exact List.count_eq_one_of_mem (List.nodup_range shardCount)
      (List.mem_range.mpr hj)

/-- Witness for C5 at a concrete input, including the one-shard case. -/
theorem map_others_excludes_current_witness :
    (∃ l, map_others 3 1 (fun x => x + 1) = some l
      ∧ l.length = 2
      ∧ (∀ d ∈ l, d.target ≠ 1)
      ∧ (∀ j, j < 3 → j ≠ 1 → (l.map Dispatch.target).count j = 1))
    ∧ (∃ l, map_others 1 0 (fun x => x + 1) = some l
      ∧ l.length = 0
      ∧ (∀ d ∈ l, d.target ≠ 0)
      ∧ (∀ j, j < 1 → j ≠ 0 → (l.map Dispatch.target).count j = 1)) :=
  ⟨map_others_excludes_current Nat Nat 3 1 (by decide) (fun x => x + 1),
   map_others_excludes_current Nat Nat 1 0 (by decide) (fun x => x + 1)⟩

/-- C6: `map_all(f)` returns exactly `shardCount` futures, one targeting
each shard; joining them invokes `f` exactly once per shard (each future's
invocation log is its own target, with every shard counted once across the
collection, and each resolves with `f` of that shard's instance); and the
collection imposes no serialization: joining in any other order yields a
permutation of the same per-shard invocation results. -/
theorem map_all_covers_all_shards (σ ρ : Type) (shardCount : Nat)
    (func : σ → ρ) (instances : Nat → σ) :
    ∃ l, map_all shardCount func = some l
      ∧ l.length = shardCount
      ∧ (∀ j, j < shardCount → (l.map Dispatch.target).count j = 1)
      ∧ (∀ d ∈ l, runDispatch instances d
          = ([d.target], some (func (instances d.target))))
      ∧ (∀ l2, l.Perm l2 →
          (l2.map (runDispatch instances)).Perm
            (l.map (runDispatch instances))) := by
  refine ⟨(List.range shardCount).map (fun sh => ⟨sh, func⟩),
    ?_, ?_, ?_, ?_, ?_⟩
  · unfold map_all
    apply map_selected_eq
    intro sh hsh
    exact List.mem_range.mp hsh
  · simp
  · intro j hj
    have hmap : (((List.range shardCount).map
          (fun sh => (⟨sh, func⟩ : Dispatch σ ρ))).map Dispatch.target)
        = List.range shardCount := by
      simp [List.map_map, Function.comp_def]
    rw [hmap]
    exact List.count_eq_one_of_mem (List.nodup_range shardCount)
      (List.mem_range.mpr hj)
  · intro d hd
    rcases List.mem_map.mp hd with ⟨sh, hsh, rfl⟩
    rfl
  · intro l2 hp
    exact (hp.map (runDispatch instances)).symm

/-- Witness for C6 at a concrete input. -/
theorem map_all_covers_all_shards_witness :
    ∃ l, map_all 2 (fun x => x + 1) = some l
      ∧ l.length = 2
      ∧ (∀ j, j < 2 → (l.map Dispatch.target).count j = 1)
      ∧ (∀ d ∈ l, runDispatch (fun sh => sh * 10) d
          = ([d.target], some (d.target * 10 + 1)))
      ∧ (∀ l2, l.Perm l2 →
          (l2.map (runDispatch (fun sh => sh * 10))).Perm
            (l.map (runDispatch (fun sh => sh * 10)))) := by
  rcases map_all_covers_all_shards Nat Nat 2 (fun x => x + 1)
      (fun sh => sh * 10) with ⟨l, h1, h2, h3, h4, h5⟩
  exact ⟨l, h1, h2, h3, fun d hd => h4 d hd, h5⟩

/-! ### Transport failures are fatal

Each dispatching function matches on the FFI future's result and turns
`Err` into a panic:
* `submit_to` (submit_to.rs lines 55-63): `Ok(_) => rx.await.unwrap(),
  Err(_) => { dropper(boxed_closure); panic }`;
* `spawn` (spawn.rs lines 40-47): `Ok(_) => x.take().unwrap(), Err(_) =>
  panic`;
* `Distributed::start_inner` (distributed.rs lines 184-193): `Ok(_) =>
  Distributed { ... }, Err(_) => panic`;
* `Distributed::stop` (line 303): `.await.unwrap()`. -/

/-- Result of an operation as the caller sees it: either a value, or the
process panicked.  There is deliberately no error constructor — the layer
has no recoverable failure path. -/
inductive Outcome (ρ : Type) where
  | ok (value : ρ)
  | panic
deriving Repr, DecidableEq

/-- The opaque transport error produced by the FFI layer. -/
structure TransportError where
  code : Nat
deriving Repr, DecidableEq

/-- Completion of the free function `submit_to` after the FFI future
resolves: on `Ok` the value received on the one-shot channel is returned,
on `Err` the closure is freed and the caller panics. -/
def submit_to_completion (ffiResult : Except TransportError Unit)
    (received : ρ) : Outcome ρ :=
  match ffiResult with
  | .ok _ => .ok received
  | .error _ => .panic

/-- Completion of `spawn` after the `cpp_spawn` future resolves. -/
def spawn_completion (ffiResult : Except TransportError Unit)
    (stored : ρ) : Outcome ρ :=
  match ffiResult with
  | .ok _ => .ok stored
  | .error _ => .panic

/-- Completion of `Distributed::start_inner` (so of `start` and
`start_single`): on `Ok` the container is built, with the token vector
allocated by `vec![Default::default(); get_count()]`; on `Err` the caller
panics. -/
def start_inner_completion (ffiResult : Except TransportError Unit)
    (shardCount : Nat) : Outcome LockVec :=
  match ffiResult with
  | .ok _ => .ok (mkLocks shardCount)
  | .error _ => .panic

/-- Completion of `Distributed::stop`: `.await.unwrap()`. -/
def stop_completion (ffiResult : Except TransportError Unit) : Outcome Unit :=
  match ffiResult with
  | .ok _ => .ok ()
  | .error _ => .panic

/-- C8: whenever the underlying transport reports failure, the calling side
of `submit_to`, `spawn`, `start`/`start_single` and `stop` panics; no
transport failure is ever surfaced to the caller as a recoverable value
(the `Outcome` type of these completions has no error constructor). -/
theorem transport_failure_is_fatal (ρ : Type) (e : TransportError)
    (received stored : ρ) (shardCount : Nat) :
    submit_to_completion (Except.error e) received = Outcome.panic
    ∧ spawn_completion (Except.error e) stored = Outcome.panic
    ∧ start_inner_completion (Except.error e) shardCount = Outcome.panic
    ∧ stop_completion (Except.error e) = Outcome.panic :=
  ⟨rfl, rfl, rfl, rfl⟩

/-! ### Runtime-active guards

`assert_runtime_is_running` (api_safety.rs lines 50-54) panics when
`engine_is_ready()` is false.  Every public operation of the layer calls it
before dispatching anything: `start_inner` (line 151), `stop` (line 302),
the `submit_to` method (line 317), `submit_to_mut` (line 356),
`map_selected` (line 389), `map_selected_mut` (line 409), `map_current`
(line 617), `map_current_mut` (line 650) and `spawn` (spawn.rs line 35).
The skeletons below retain each operation's control flow and record, in
order, the externally visible dispatch effects it performs. -/

/-- An externally visible dispatch effect. -/
inductive Eff where
  | newDistributed
  | ffiStart
  | ffiStartSingle
  | ffiStop
  | ffiSubmitTo (shard : Nat)
  | cppSpawn
deriving Repr, DecidableEq

/-- `assert_runtime_is_running`: `none` models the panic taken when
`engine_is_ready()` is false. -/
def assert_runtime_is_running (engineReady : Bool) : Option Unit :=
  if engineReady then some () else none

/-- `Distributed::start_inner`: assert, build the erased maker, call
`new_distributed`, then dispatch `ffi::start` or `ffi::start_single`. -/
def start_inner_op (engineReady single : Bool) : Option Unit × List Eff :=
  match assert_runtime_is_running engineReady with
  | none => (none, [])
  | some _ =>
    (some (), [Eff.newDistributed,
      if single then Eff.ffiStartSingle else Eff.ffiStart])

/-- `Distributed::start`. -/
def start_op (engineReady : Bool) : Option Unit × List Eff :=
  start_inner_op engineReady false

/-- `Distributed::start_single`. -/
def start_single_op (engineReady : Bool) : Option Unit × List Eff :=
  start_inner_op engineReady true

/-- `Distributed::stop`: assert, then dispatch `ffi::stop`. -/
def stop_op (engineReady : Bool) : Option Unit × List Eff :=
  match assert_runtime_is_running engineReady with
  | none => (none, [])
  | some _ => (some (), [Eff.ffiStop])

/-- The `Distributed::submit_to` method: assert, index
`self._locks[shard_id]` (out of range panics), then dispatch. -/
def submit_to_op (engineReady : Bool) (shardCount shard_id : Nat) :
    Option Unit × List Eff :=
  match assert_runtime_is_running engineReady with
  | none => (none, [])
  | some _ =>
    if shard_id < shardCount then (some (), [Eff.ffiSubmitTo shard_id])
    else (none, [])

/-- The `Distributed::submit_to_mut` method: same control flow. -/
def submit_to_mut_op (engineReady : Bool) (shardCount shard_id : Nat) :
    Option Unit × List Eff :=
  match assert_runtime_is_running engineReady with
  | none => (none, [])
  | some _ =>
    if shard_id < shardCount then (some (), [Eff.ffiSubmitTo shard_id])
    else (none, [])

/-- `Distributed::map_single`: wraps the container pointer and calls the
`submit_to` method. -/
def map_single_op (engineReady : Bool) (shardCount shard_id : Nat) :
    Option Unit × List Eff :=
  submit_to_op engineReady shardCount shard_id

/-- `Distributed::map_single_mut`. -/
def map_single_mut_op (engineReady : Bool) (shardCount shard_id : Nat) :
    Option Unit × List Eff :=
  submit_to_mut_op engineReady shardCount shard_id

/-- The loop body of `map_selected`: one `map_single` per chosen shard. -/
def map_selected_loop (engineReady : Bool) (shardCount : Nat) :
    List Nat → Option Unit × List Eff
  | [] => (some (), [])
  | sh :: rest =>
    match map_single_op engineReady shardCount sh with
    | (none, effs) => (none, effs)
    | (some _, effs) =>
      match map_selected_loop engineReady shardCount rest with
      | (o, effs2) => (o, effs ++ effs2)

/-- `Distributed::map_selected`: assert, then the loop. -/
def map_selected_op (engineReady : Bool) (shardCount : Nat)
    (shards : List Nat) : Option Unit × List Eff :=
  match assert_runtime_is_running engineReady with
  | none => (none, [])
  | some _ => map_selected_loop engineReady shardCount shards

/-- The loop body of `map_selected_mut`. -/
def map_selected_mut_loop (engineReady : Bool) (shardCount : Nat) :
    List Nat → Option Unit × List Eff
  | [] => (some (), [])
  | sh :: rest =>
    match map_single_mut_op engineReady shardCount sh with
    | (none, effs) => (none, effs)
    | (some _, effs) =>
      match map_selected_mut_loop engineReady shardCount rest with
      | (o, effs2) => (o, effs ++ effs2)

/-- `Distributed::map_selected_mut`: assert, then the loop. -/
def map_selected_mut_op (engineReady : Bool) (shardCount : Nat)
    (shards : List Nat) : Option Unit × List Eff :=
  match assert_runtime_is_running engineReady with
  | none => (none, [])
  | some _ => map_selected_mut_loop engineReady shardCount shards

/-- `Distributed::map_all`: `map_selected` over `0..get_count()`
(`get_count` is a pure query of the reactor, not a dispatch). -/
def map_all_op (engineReady : Bool) (shardCount : Nat) :
    Option Unit × List Eff :=
  map_selected_op engineReady shardCount (List.range shardCount)

/-- `Distributed::map_all_mut`. -/
def map_all_mut_op (engineReady : Bool) (shardCount : Nat) :
    Option Unit × List Eff :=
  map_selected_mut_op engineReady shardCount (List.range shardCount)

/-- `Distributed::map_others`: `this_shard_id()` is a pure query, then
`map_selected` over the other shards. -/
def map_others_op (engineReady : Bool) (shardCount thisShard : Nat) :
    Option Unit × List Eff :=
  map_selected_op engineReady shardCount
    ((List.range shardCount).filter (fun sh => sh != thisShard))

/-- `Distributed::map_others_mut`. -/
def map_others_mut_op (engineReady : Bool) (shardCount thisShard : Nat) :
    Option Unit × List Eff :=
  map_selected_mut_op engineReady shardCount
    ((List.range shardCount).filter (fun sh => sh != thisShard))

/-- `spawn`: assert, then hand the future to `cpp_spawn`. -/
def spawn_op (engineReady : Bool) : Option Unit × List Eff :=
  match assert_runtime_is_running engineReady with
  | none => (none, [])
  | some _ => (some (), [Eff.cppSpawn])

/-- `Distributed::map_current`: assert, index
`self._locks[this_shard_id()]`, then `spawn` the wrapped closure. -/
def map_current_op (engineReady : Bool) (shardCount thisShard : Nat) :
    Option Unit × List Eff :=
  match assert_runtime_is_running engineReady with
  | none => (none, [])
  | some _ =>
    if thisShard < shardCount then spawn_op engineReady
    else (none, [])

/-- `Distributed::map_current_mut`: same control flow. -/
def map_current_mut_op (engineReady : Bool) (shardCount thisShard : Nat) :
    Option Unit × List Eff :=
  match assert_runtime_is_running engineReady with
  | none => (none, [])
  | some _ =>
    if thisShard < shardCount then spawn_op engineReady
    else (none, [])

/-- C9: with the runtime not active (`engine_is_ready() = false`), every
operation — `start`, `start_single`, `stop`, all eight mapping operations
and `spawn` — panics in `assert_runtime_is_running` before performing any
dispatch or other externally visible effect (its effect list is empty). -/
theorem not_running_panics_before_dispatch (shardCount shard_id thisShard : Nat)
    (shards : List Nat) :
    start_op false = (none, [])
    ∧ start_single_op false = (none, [])
    ∧ stop_op false = (none, [])
    ∧ map_single_op false shardCount shard_id = (none, [])
    ∧ map_single_mut_op false shardCount shard_id = (none, [])
    ∧ map_selected_op false shardCount shards = (none, [])
    ∧ map_selected_mut_op false shardCount shards = (none, [])
    ∧ map_all_op false shardCount = (none, [])
    ∧ map_all_mut_op false shardCount = (none, [])
    ∧ map_others_op false shardCount thisShard = (none, [])
    ∧ map_others_mut_op false shardCount thisShard = (none, [])
    ∧ map_current_op false shardCount thisShard = (none, [])
    ∧ map_current_mut_op false shardCount thisShard = (none, [])
    ∧ spawn_op false = (none, []) :=
  ⟨rfl, rfl, rfl, rfl, rfl, rfl, rfl, rfl, rfl, rfl, rfl, rfl, rfl, rfl⟩

/-! ### `Distributed::local` bypasses every guard

`local` (distributed.rs lines 142-145) calls `ffi::local` on
`self._inner.as_ref().unwrap()` and reinterprets the returned pointer.  It
neither calls `assert_runtime_is_running` nor touches `self._locks`: its
embedding takes no runtime flag, and its result is invariant under the
whole lock state. -/

/-- The data of a `Distributed<S>` handle visible to `local`: the shared
pointer to the native per-shard instance table (`none` models a null
`SharedPtr`, on which `as_ref().unwrap()` panics — `new_distributed` never
returns null, so a started container has `some`), plus the token vector,
which `local` ignores. -/
structure Container (σ : Type) where
  inner : Option (Nat → σ)
  locks : LockVec

/-- `Distributed::local`: dereferences the instance table at the current
shard.  No runtime assertion, no token acquisition. -/
def local_ref (c : Container σ) (thisShard : Nat) : Outcome σ :=
  match c.inner with
  | some table => .ok (table thisShard)
  | none => .panic

/-- C10: for a started container (non-null inner pointer) `local` returns
the current shard's instance and never panics, for every lock state —
including one where a mutating closure's guard is held — and its result is
independent of the lock state entirely: it consults no exclusivity token
and no runtime-active flag. -/
theorem local_bypasses_guards (σ : Type) (table : Nat → σ) (thisShard : Nat)
    (locks held : LockVec) :
    local_ref ⟨some table, locks⟩ thisShard = Outcome.ok (table thisShard)
    ∧ local_ref ⟨some table, locks⟩ thisShard
        = local_ref ⟨some table, held⟩ thisShard :=
  ⟨rfl, rfl⟩

end SeastarRs
